import Mathlib

/-!
Verification of the Windows Defender DetectionHistory parser (`dhparser.py`).

This file shallowly embeds the decoding core of the parser: the byte cursor,
the primitive codecs (`byte_swap_to_int`, `parse_filetime`, the GUID decoder),
the heuristic tracking-value scanner (`parse_unmapped_value`), and the
three-section key/value state machine of `parse_detection_history`.

Conventions of the embedding:
* A Python binary file object is a `ByteCursor`: an immutable byte buffer
  (`List Nat`, each entry one byte) plus a read position.  `read n` returns up
  to `n` bytes and advances by the number of bytes actually returned, exactly
  like `file.read(n)` (which returns a short or empty result at end of input
  and never raises).
* Unbounded Python `while` loops become fuel-indexed recursions returning
  `Option`; `none` means the loop did not finish within the given fuel, so
  `∀ fuel, f fuel = none` expresses divergence.
* A Python exception that is not caught inside the translated routine is the
  `none` / `.err` outcome of that routine.
-/

set_option autoImplicit false

namespace DHParser

/-- Sequential reader over an immutable byte buffer (Python binary file object). -/
structure ByteCursor where
  buf : List Nat
  pos : Nat
  deriving DecidableEq

/-- `file.read n`: returns up to `n` bytes from the current position and
advances by the number of bytes actually read (short or empty at end of input,
never an error). -/
def ByteCursor.read (c : ByteCursor) (n : Nat) : List Nat × ByteCursor :=
  let bs := (c.buf.drop c.pos).take n
  (bs, ⟨c.buf, c.pos + bs.length⟩)

/-- Lowercase hex digit of a nibble, as an ASCII code (`binascii.hexlify` digit). -/
def hexChar (d : Nat) : Nat :=
  if d < 10 then 48 + d else 87 + d

/-- `binascii.hexlify`: two lowercase hex digits (ASCII codes) per byte. -/
def hexlify (bs : List Nat) : List Nat :=
  (bs.map fun b => [hexChar (b / 16), hexChar (b % 16)]).flatten

/-- `[hexval[i:i+2] for i in range(0, len(hexval), 2)]`: split into 2-byte
pieces, a trailing odd byte forming a 1-byte piece. -/
def chunk2 : List Nat → List (List Nat)
  | [] => []
  | [a] => [[a]]
  | a :: b :: t => [a, b] :: chunk2 t

/-- The byte-order swap of `byte_swap_to_int`: split into 2-character pieces,
reverse their order, and rejoin (`hexval.reverse(); b''.join(hexval)`). -/
def revPairs (l : List Nat) : List Nat :=
  (chunk2 l).reverse.flatten

/-- `int("0x" + ch, 16)` for one hex-digit character `ch` (ASCII code).
Callers in the source only ever pass `binascii.hexlify` output, so `ch` is
always `0-9a-f`; any other character would raise `ValueError` in Python and
never occurs. -/
def hexCharVal (c : Nat) : Nat :=
  if 48 ≤ c ∧ c ≤ 57 then c - 48
  else if 97 ≤ c ∧ c ≤ 102 then c - 87
  else 0

/-- The accumulation loop of `byte_swap_to_int`:
`hex_int += hexval[len-1-exponent] * 16^exponent` for `exponent = len-1 .. 0`,
i.e. the digits are read in base 16, most significant digit first. -/
def hexDigitsVal : List Nat → Nat
  | [] => 0
  | d :: ds => d * 16 ^ ds.length + hexDigitsVal ds

/-- `byte_swap_to_int(hexval)` (with `str_flag=False`): swap the byte order of
the hex string and interpret the result as a base-16 integer. -/
def byteSwapToInt (hexval : List Nat) : Nat :=
  hexDigitsVal ((revPairs hexval).map hexCharVal)

/-- A list of ASCII codes decoded as a string (the `.decode('utf-8')` of a hex
string, which is pure ASCII). -/
def asciiStr (l : List Nat) : String :=
  String.mk (l.map Char.ofNat)

/-- `byte_swap_to_int(hexval, str_flag=True)`: the swapped hex string itself. -/
def byteSwapToStr (hexval : List Nat) : String :=
  asciiStr (revPairs hexval)

/-! ## The tracking-value scanner `parse_unmapped_value` -/

/-- The result of `parse_unmapped_value`: either `binascii.hexlify` output from
inside the caution-byte loop, or the integer `0` of the trailing
`return 0  # should never get to this point` line. -/
inductive PuvResult where
  | hex (h : List Nat)
  | sentinel (n : Nat)
  deriving DecidableEq

/-- `caution_sequences = [b'\x00', b'\x32', b'\x24', b'\x04', b'\x06']`. -/
def cautionSequences : List (List Nat) :=
  [[0x00], [0x32], [0x24], [0x04], [0x06]]

/-- First loop of `parse_unmapped_value`: skip forward until three consecutive
zero bytes are seen.  `chunk` is the current chunk variable of the loop. -/
def puvScan : Nat → List Nat → ByteCursor → Option ByteCursor
  | 0, _, _ => none
  | fuel + 1, chunk, c =>
    if chunk = [0x00] then
      let (b, c1) := c.read 1
      let chunk1 := chunk ++ b
      if chunk1 = [0x00, 0x00] then
        let (b2, c2) := c1.read 1
        let chunk2 := chunk1 ++ b2
        if chunk2 = [0x00, 0x00, 0x00] then some c2
        else puvScan fuel chunk2 c2
      else puvScan fuel chunk1 c1
    else
      let (b, c1) := c.read 1
      puvScan fuel b c1

/-- Second loop of `parse_unmapped_value`: the caution-byte scan.  The Python
`while True:` containing `while chunk in caution_sequences:` only ever exits
through the `return binascii.hexlify(unmapped_val)` statement. -/
def puvLoop : Nat → List Nat → List Nat → ByteCursor → Option (PuvResult × ByteCursor)
  | 0, _, _, _ => none
  | fuel + 1, acc, chunk, c =>
    if chunk ∈ cautionSequences then
      let (nb, c1) := c.read 1
      if nb = [0x00] then some (PuvResult.hex (hexlify acc), c1)
      else puvLoop fuel acc nb c1
    else
      let (nb, c1) := c.read 1
      puvLoop fuel (acc ++ chunk) nb c1

/-- `parse_unmapped_value(file)`: find a 3-zero run, consume 3 bytes of initial
content, then run the caution-byte loop.  `none` means the routine did not
terminate within `fuel` loop iterations. -/
def parse_unmapped_value (fuel : Nat) (c : ByteCursor) : Option (PuvResult × ByteCursor) :=
  let (b, c1) := c.read 1
  match puvScan fuel b c1 with
  | none => none
  | some c2 =>
    let (val, c3) := c2.read 3
    let (ch, c4) := c3.read 1
    puvLoop fuel val ch c4

/-! ## Text decoding (`.decode('windows-1252')`) and the regex helpers -/

/-- One byte decoded per the windows-1252 codec.  Bytes `0x80`–`0x9F` map to
their Unicode codepoints; the five undefined bytes (`0x81 0x8D 0x8F 0x90 0x9D`)
raise `UnicodeDecodeError` in Python, here `none`.  All other bytes map to the
identical codepoint. -/
def decodeByte1252 (b : Nat) : Option Char :=
  if b = 0x80 then some (Char.ofNat 0x20AC)
  else if b = 0x81 then none
  else if b = 0x82 then some (Char.ofNat 0x201A)
  else if b = 0x83 then some (Char.ofNat 0x0192)
  else if b = 0x84 then some (Char.ofNat 0x201E)
  else if b = 0x85 then some (Char.ofNat 0x2026)
  else if b = 0x86 then some (Char.ofNat 0x2020)
  else if b = 0x87 then some (Char.ofNat 0x2021)
  else if b = 0x88 then some (Char.ofNat 0x02C6)
  else if b = 0x89 then some (Char.ofNat 0x2030)
  else if b = 0x8A then some (Char.ofNat 0x0160)
  else if b = 0x8B then some (Char.ofNat 0x2039)
  else if b = 0x8C then some (Char.ofNat 0x0152)
  else if b = 0x8D then none
  else if b = 0x8E then some (Char.ofNat 0x017D)
  else if b = 0x8F then none
  else if b = 0x90 then none
  else if b = 0x91 then some (Char.ofNat 0x2018)
  else if b = 0x92 then some (Char.ofNat 0x2019)
  else if b = 0x93 then some (Char.ofNat 0x201C)
  else if b = 0x94 then some (Char.ofNat 0x201D)
  else if b = 0x95 then some (Char.ofNat 0x2022)
  else if b = 0x96 then some (Char.ofNat 0x2013)
  else if b = 0x97 then some (Char.ofNat 0x2014)
  else if b = 0x98 then some (Char.ofNat 0x02DC)
  else if b = 0x99 then some (Char.ofNat 0x2122)
  else if b = 0x9A then some (Char.ofNat 0x0161)
  else if b = 0x9B then some (Char.ofNat 0x203A)
  else if b = 0x9C then some (Char.ofNat 0x0153)
  else if b = 0x9D then none
  else if b = 0x9E then some (Char.ofNat 0x017E)
  else if b = 0x9F then some (Char.ofNat 0x0178)
  else some (Char.ofNat b)

/-- Decode a byte sequence with windows-1252; `none` if any byte is undefined
(Python raises `UnicodeDecodeError`). -/
def decodeBytes1252 : List Nat → Option (List Char)
  | [] => some []
  | b :: t =>
    match decodeByte1252 b, decodeBytes1252 t with
    | some ch, some cs => some (ch :: cs)
    | _, _ => none

/-- `bytes.decode('windows-1252')` as a string. -/
def decodeChunk (bs : List Nat) : Option String :=
  (decodeBytes1252 bs).map String.mk

/-- Python's `\w` (regex word character) restricted to the character
repertoire windows-1252 can produce: ASCII alphanumerics and `_`, the
letters among `0x80`–`0x9F`'s mapped codepoints (ƒ Š Œ Ž š œ ž Ÿ and the
modifier letter ˆ), and the Latin-1 letters and numeric characters
(ª µ º ² ³ ¹ ¼ ½ ¾ and `À`–`ÿ` except `×` and `÷`). -/
def isWordChar (c : Char) : Bool :=
  c.isAlphanum || c = '_' ||
  (c.toNat = 0x0192 || c.toNat = 0x0160 || c.toNat = 0x0152 || c.toNat = 0x017D ||
   c.toNat = 0x0161 || c.toNat = 0x0153 || c.toNat = 0x017E || c.toNat = 0x0178 ||
   c.toNat = 0x02C6) ||
  (c.toNat = 0xAA || c.toNat = 0xB5 || c.toNat = 0xBA ||
   c.toNat = 0xB2 || c.toNat = 0xB3 || c.toNat = 0xB9 ||
   c.toNat = 0xBC || c.toNat = 0xBD || c.toNat = 0xBE) ||
  (0xC0 ≤ c.toNat && c.toNat ≤ 0xFF && c.toNat ≠ 0xD7 && c.toNat ≠ 0xF7)

/-- `len(re.sub(r'\W+', '', s))`: the number of word characters of `s`. -/
def wordCount (s : String) : Nat :=
  (s.toList.filter isWordChar).length

/-- `re.sub("\x00", "", s)`: remove the NUL characters. -/
def stripNul (s : String) : String :=
  String.mk (s.toList.filter fun ch => ch != Char.ofNat 0)

/-- Python slice `s[0:n]`. -/
def strTake (n : Nat) (s : String) : String :=
  String.mk (s.toList.take n)

/-- Substring containment on character lists (`needle in haystack`). -/
def isSub (needle : List Char) : List Char → Bool
  | [] => needle.isEmpty
  | c :: t => needle.isPrefixOf (c :: t) || isSub needle t

/-- Python `needle in haystack` on strings. -/
def pyIn (needle haystack : String) : Bool :=
  isSub needle.toList haystack.toList

/-- Whether the character at index `i` of `s` is removed by
`re.sub(r':(?=..(?<!\d:\d\d))|[^a-zA-Z0-9 ](?<!:)', '', s)` (the trailer
section's confirmation regex).  Both alternatives match a single character:
a colon is removed when two characters follow it, neither of which is `\n`
(Python's `.` does not match a newline in default mode), and the window
around it is not `\d:\d\d`; any other character is removed when it is not an
ASCII alphanumeric or a space. -/
def trailerRemovedAt (s : List Char) (i : Nat) : Bool :=
  let c := s.getD i ' '
  if c = ':' then
    decide (i + 2 < s.length) &&
      !(s.getD (i + 1) ' ' = Char.ofNat 0x0A) &&
      !(s.getD (i + 2) ' ' = Char.ofNat 0x0A) &&
      !(decide (1 ≤ i) && (s.getD (i - 1) ' ').isDigit &&
        (s.getD (i + 1) ' ').isDigit && (s.getD (i + 2) ' ').isDigit)
  else
    !(c.isAlphanum || c = ' ')

/-- `len(re.sub(r':(?=..(?<!\d:\d\d))|[^a-zA-Z0-9 ](?<!:)', '', s))`. -/
def trailerWordLen (s : String) : Nat :=
  ((List.range s.toList.length).filter fun i => !trailerRemovedAt s.toList i).length

/-! ## Little-endian value semantics (specification side)

These two definitions follow the spec's words — "given raw bytes in
little-endian order, return the unsigned integer value" and "re-deriving the
original little-endian byte sequence from the integer" — and are compared
against the code's `byte_swap_to_int`. -/

/-- The unsigned integer whose little-endian byte encoding is `bs`. -/
def leVal : List Nat → Nat
  | [] => 0
  | b :: t => b + 256 * leVal t

/-- The `n`-byte little-endian encoding of `v`. -/
def toLEBytes : Nat → Nat → List Nat
  | 0, _ => []
  | n + 1, v => v % 256 :: toLEBytes n (v / 256)

/-- The unsigned integer whose big-endian byte encoding is `bs` (helper). -/
def beVal : List Nat → Nat
  | [] => 0
  | b :: t => b * 256 ^ t.length + beVal t

/-! ## `parse_filetime`

`parse_filetime` computes
`datetime(1601,1,1) + timedelta(microseconds=float(ticks/10))` and formats it
with `strftime("%m-%d-%Y %H:%M:%S")`.  The tick count passes through a
double-precision float: Python's `int / int` true division returns the
IEEE-754 double nearest to the exact quotient (ties to even), and
`timedelta(microseconds=f)` for a float `f` computes `round(f)` (nearest
integer, ties to even).  Both roundings are reproduced here exactly in `Nat`
arithmetic. -/

/-- Round `a / b` to the nearest integer, ties to even (`b > 0`). -/
def roundHalfEvenDiv (a b : Nat) : Nat :=
  let q := a / b
  let r := a % b
  if 2 * r < b then q
  else if b < 2 * r then q + 1
  else if q % 2 = 0 then q else q + 1

/-- Fuel-driven floor of `log2` (structural recursion, so that it reduces in
the kernel; 128 steps of fuel cover every value used here). -/
def log2Fuel : Nat → Nat → Nat
  | 0, _ => 0
  | fuel + 1, n => if 2 ≤ n then log2Fuel fuel (n / 2) + 1 else 0

/-- `⌊log2 n⌋` for the values in use (`n < 2^128`). -/
def myLog2 (n : Nat) : Nat := log2Fuel 128 n

/-- `⌈log2 n⌉`: the least `t` with `n ≤ 2 ^ t`. -/
def myClog2 (n : Nat) : Nat :=
  if n ≤ 1 then 0 else myLog2 (n - 1) + 1

/-- The integral number of microseconds produced by
`timedelta(microseconds=float(T/10))`: the exact quotient `T/10` is rounded to
the nearest double (mantissa of 53 bits, ties to even), and that double is
rounded to the nearest integer (ties to even).  For `T/10 ≥ 2^52` the double
grid spacing `2^s` is a whole number, so the second rounding is the identity;
otherwise the double is the dyadic `m / 2^t` with `2^52 ≤ m < 2^53`. -/
def pyRoundMicroOfTicks (T : Nat) : Nat :=
  if T = 0 then 0
  else if 5 * 2 ^ 53 ≤ T then
    let s := myLog2 (T / 10) - 52
    roundHalfEvenDiv T (10 * 2 ^ s) * 2 ^ s
  else
    let t := myClog2 ((5 * 2 ^ 53 + T - 1) / T)
    let m := roundHalfEvenDiv (T * 2 ^ t) 10
    roundHalfEvenDiv m (2 ^ t)

/-- Proleptic Gregorian civil date from a day count relative to 1601-01-01
(the calendar arithmetic inside Python's `datetime`).  Returns
`(year, month, day)`.  Standard era decomposition anchored at 0000-03-01;
1601-01-01 is day 584694 of that epoch. -/
def civilFromDays (z : Nat) : Nat × Nat × Nat :=
  let n := z + 584694
  let era := n / 146097
  let doe := n % 146097
  let yoe := (doe - doe / 1460 + doe / 36524 - doe / 146096) / 365
  let y := yoe + era * 400
  let doy := doe - (365 * yoe + yoe / 4 - yoe / 100)
  let mp := (5 * doy + 2) / 153
  let d := doy - (153 * mp + 2) / 5 + 1
  let m := if mp < 10 then mp + 3 else mp - 9
  (if m ≤ 2 then y + 1 else y, m, d)

/-- A decimal digit as a character. -/
def digitCh (n : Nat) : Char := Char.ofNat (48 + n % 10)

/-- Two-digit zero-padded decimal (`strftime`'s `%m`, `%d`, `%H`, `%M`, `%S`). -/
def pad2 (n : Nat) : String :=
  String.mk [digitCh (n / 10), digitCh n]

/-- Four-digit zero-padded decimal (`strftime`'s `%Y`; every year in
`datetime`'s range that can arise here has exactly four digits). -/
def pad4 (n : Nat) : String :=
  String.mk [digitCh (n / 1000), digitCh (n / 100), digitCh (n / 10), digitCh n]

/-- The largest microsecond offset from 1601-01-01 that still fits in a
`datetime` (year ≤ 9999): 3067671 days minus one microsecond.  A larger
offset raises `OverflowError`. -/
def maxMicros : Nat := 3067671 * 86400000000 - 1

/-- Format `M` microseconds after 1601-01-01T00:00:00 as
`MM-DD-YYYY HH:MM:SS` (the `datetime` addition normalises the `timedelta`
into days / seconds-of-day, and `strftime` renders them). -/
def formatMicrosSince1601 (M : Nat) : String :=
  let days := M / 86400000000
  let sec := M / 1000000 % 86400
  let ymd := civilFromDays days
  pad2 ymd.2.1 ++ "-" ++ pad2 ymd.2.2 ++ "-" ++ pad4 ymd.1 ++ " " ++
    pad2 (sec / 3600) ++ ":" ++ pad2 (sec / 60 % 60) ++ ":" ++ pad2 (sec % 60)

/-- `parse_filetime(file)`: skip 4 bytes, read 8 bytes, byte-swap to the tick
count, convert to a timestamp string.  `none` models the `OverflowError` that
`datetime(1601,1,1) + timedelta` raises past year 9999. -/
def parse_filetime (c : ByteCursor) : Option (String × ByteCursor) :=
  let (_, c1) := c.read 4
  let (fb, c2) := c1.read 8
  let ticks := byteSwapToInt (hexlify fb)
  let M := pyRoundMicroOfTicks ticks
  if M ≤ maxMicros then some (formatMicrosSince1601 M, c2) else none

/-- Modelled from the spec: "converts to a calendar timestamp with second
precision (format `MM-DD-YYYY HH:MM:SS`)" applied directly to the exact tick
count (1 tick = 100 ns, so `ticks / 10^7` whole seconds since 1601). -/
def specTimestampOfTicks (ticks : Nat) : String :=
  let s := ticks / 10000000
  let days := s / 86400
  let r := s % 86400
  let ymd := civilFromDays days
  pad2 ymd.2.1 ++ "-" ++ pad2 ymd.2.2 ++ "-" ++ pad4 ymd.1 ++ " " ++
    pad2 (r / 3600) ++ ":" ++ pad2 (r / 60 % 60) ++ ":" ++ pad2 (r % 60)

/-- Second-precision formatting from a whole second count since 1601-01-01
(specification side, for stating what `parse_filetime` computes). -/
def formatSecondsSince1601 (s : Nat) : String :=
  let days := s / 86400
  let r := s % 86400
  let ymd := civilFromDays days
  pad2 ymd.2.1 ++ "-" ++ pad2 ymd.2.2 ++ "-" ++ pad4 ymd.1 ++ " " ++
    pad2 (r / 3600) ++ ":" ++ pad2 (r / 60 % 60) ++ ":" ++ pad2 (r % 60)

/-! ## `parse_header_and_guid` -/

/-- The fixed DetectionHistory magic header `08 00 00 00 08 00`. -/
def magicBytes : List Nat := [0x08, 0x00, 0x00, 0x00, 0x08, 0x00]

/-- The GUID decoding inlined in `parse_header_and_guid` (lines 74–93): read
byte groups of sizes 4, 2, 2, 2, 6, hexlify each, reverse the hex-digit pairs
of the first three groups (the `while oct_count <= 2` loop), and join the five
decoded groups with dashes. -/
def guidDecode (c : ByteCursor) : String × ByteCursor :=
  let (g0, c1) := c.read 4
  let (g1, c2) := c1.read 2
  let (g2, c3) := c2.read 2
  let (g3, c4) := c3.read 2
  let (g4, c5) := c4.read 6
  (asciiStr (revPairs (hexlify g0)) ++ "-" ++
   asciiStr (revPairs (hexlify g1)) ++ "-" ++
   asciiStr (revPairs (hexlify g2)) ++ "-" ++
   asciiStr (hexlify g3) ++ "-" ++
   asciiStr (hexlify g4), c5)

/-- `parse_header_and_guid(file)`: require the 6-byte magic header (a mismatch
raises `IOError`, here `none`), skip 18 bytes, decode the GUID. -/
def parse_header_and_guid (c : ByteCursor) : Option (String × ByteCursor) :=
  let (header, c1) := c.read 6
  if header = magicBytes then
    let (_, c2) := c1.read 18
    some (guidDecode c2)
  else none

/-! ## The section state machine of `parse_detection_history` -/

/-- A decoded field value: Python stores strings and integers in
`parsed_value_dict`. -/
inductive PValue where
  | str (s : String)
  | int (n : Nat)
  deriving DecidableEq

/-- `parsed_value_dict[k]` (a `KeyError`, i.e. a missing key, is `none`). -/
def dictGet : List (String × PValue) → String → Option PValue
  | [], _ => none
  | (k, v) :: t, key => if k = key then some v else dictGet t key

/-- `parsed_value_dict[k] = v`: replace in place, or append a new entry
(Python dicts keep insertion order). -/
def dictSet : List (String × PValue) → String → PValue → List (String × PValue)
  | [], key, v => [(key, v)]
  | (k, w) :: t, key, v =>
    if k = key then (k, v) :: t else (k, w) :: dictSet t key v

/-- `parsed_value_dict[k] += s`: `none` when the key is missing (`KeyError`)
or the stored value is an integer (`TypeError`). -/
def dictAppendStr (d : List (String × PValue)) (key s : String) :
    Option (List (String × PValue)) :=
  match dictGet d key with
  | some (PValue.str v) => some (dictSet d key (PValue.str (v ++ s)))
  | _ => none

/-- Python list indexing with single negative-index wrap-around;
out of range is `IndexError` (`none`). -/
def pyListGet (l : List String) (i : Int) : Option String :=
  if i < 0 then
    if (0 : Int) ≤ (l.length : Int) + i then l.get? ((l.length : Int) + i).toNat
    else none
  else l.get? i.toNat

/-- `EOF_SECTION_KEYS = ["User","SpawningProcessName","SecurityGroup"]`. -/
def eofSectionKeys : List String := ["User", "SpawningProcessName", "SecurityGroup"]

/-- A parse mode byte: `KEY_READ_MODE`, `VALUE_READ_MODE`, `NULL_DATA_MODE`,
or the initial `LAST_READ_MODE = b'\xFF'`. -/
inductive ReadMode where
  | key
  | value
  | nullrun
  | init
  deriving DecidableEq

/-- The mutable state of `parse_detection_history`'s decoding loops. -/
structure PState where
  cur : ByteCursor
  dict : List (String × PValue)
  temp_key : String
  mode : ReadMode
  last : ReadMode
  eofIdx : Int
  deriving DecidableEq

/-- Outcome of one iteration of a section's `while` loop: continue with a new
state, leave the section (its flag was set to 0, or the chunk was empty), or
raise an uncaught exception. -/
inductive StepRes where
  | next (st : PState)
  | stop (st : PState)
  | err
  deriving DecidableEq

/-- One iteration of the `while MAGIC_VERSION_SECTION` loop
(lines 173–208). -/
def mvBody (st : PState) : StepRes :=
  let (chunk, c1) := st.cur.read 2
  if chunk = [] then .stop { st with cur := c1 }
  else if st.mode = .key then
    if chunk = [0x3A, 0x00] then
      let tk := stripNul st.temp_key
      .next { st with cur := c1, dict := dictSet st.dict tk (.str ""), temp_key := tk, mode := .value }
    else
      match decodeChunk chunk with
      | none => .err
      | some s =>
        let tk := st.temp_key ++ s
        if pyIn (String.mk ['f', Char.ofNat 0, 'i', Char.ofNat 0, 'l', Char.ofNat 0, 'e']) tk then
          let tk2 := stripNul tk
          let (_, c2) := c1.read 16
          .stop { st with cur := c2, dict := dictSet st.dict tk2 (.str ""), temp_key := tk2, mode := .value }
        else .next { st with cur := c1, temp_key := tk }
  else if st.mode = .value then
    if chunk = [0x00, 0x00] then
      let (ch2, c2) := c1.read 2
      if ch2 = [0x00, 0x00] then
        match dictGet st.dict st.temp_key with
        | some (PValue.str v) =>
          .next { st with cur := c2, dict := dictSet st.dict st.temp_key (.str (stripNul v)), temp_key := "", mode := .nullrun }
        | _ => .err
      else .next { st with cur := c2 }
    else
      match decodeChunk chunk with
      | none => .err
      | some s =>
        match dictAppendStr st.dict st.temp_key s with
        | none => .err
        | some d => .next { st with cur := c1, dict := d }
  else
    let d0 := if c1.pos = 242 then
      dictSet st.dict "ThreatStatusID" (PValue.int (byteSwapToInt (hexlify chunk)))
    else st.dict
    match decodeChunk chunk with
    | none => .err
    | some s =>
      if 1 ≤ wordCount s then
        let (ch2, c2) := c1.read 2
        let chunk4 := chunk ++ ch2
        match decodeChunk chunk4 with
        | none => .err
        | some s4 =>
          if 2 ≤ wordCount s4 then
            .next { st with cur := c2, dict := d0, temp_key := st.temp_key ++ s4, mode := .key }
          else .next { st with cur := c2, dict := d0 }
      else .next { st with cur := c1, dict := d0 }

/-- General section, `NULL_DATA_MODE` branch (lines 216–233): the 2-then-4
byte alphanumeric-confirmation lookahead, and the line-feed section
terminator with its false-positive allow-list. -/
def genNullStep (st : PState) (chunk : List Nat) (c1 : ByteCursor) : StepRes :=
  match decodeChunk chunk with
  | none => .err
  | some s =>
    if 1 ≤ wordCount s then
      let (ch2, c2) := c1.read 2
      let chunk4 := chunk ++ ch2
      match decodeChunk chunk4 with
      | none => .err
      | some s4 =>
        if 2 ≤ wordCount s4 then
          if st.last = .key then
            match dictAppendStr st.dict st.temp_key s4 with
            | none => .err
            | some d => .next { st with cur := c2, dict := d, mode := .value }
          else
            .next { st with cur := c2, temp_key := st.temp_key ++ s4, mode := .key }
        else .next { st with cur := c2 }
    else if chunk = [0x0A, 0x00] ∨ chunk = [0x00, 0x0A] then
      let (_, c2) := c1.read 2
      let (ch4, c3) := c2.read 4
      if ch4 = [0x15, 0x00, 0x00, 0x00] ∨ ch4 = [0x00, 0x15, 0x00, 0x00] then
        .next { st with cur := c3 }
      else
        let (_, c4) := c3.read 4
        .stop { st with cur := c4 }
    else .next { st with cur := c1 }

/-- General section, KEY termination on a zero chunk (lines 236–257). -/
def genKeyTerminate (fuel : Nat) (st : PState) (c1 : ByteCursor) : StepRes :=
  let tk := stripNul st.temp_key
  if pyIn "Magic." (strTake 6 tk) then
    .next { st with cur := c1, temp_key := "", last := .value, mode := .nullrun }
  else if pyIn "Time" tk then
    match parse_filetime c1 with
    | none => .err
    | some (ts, c2) =>
      .next { st with cur := c2, dict := dictSet st.dict tk (.str ts), temp_key := "", last := .value, mode := .nullrun }
  else if pyIn "ThreatTrackingThreatId" tk || pyIn "ThreatTrackingSize" tk then
    match parse_unmapped_value fuel c1 with
    | some (PuvResult.hex hx, c2) =>
      .next { st with cur := c2, dict := dictSet st.dict tk (.int (byteSwapToInt hx)), temp_key := "", last := .value, mode := .nullrun }
    | _ => .err
  else if pyIn "ThreatTrackingSigSeq" tk then
    match parse_unmapped_value fuel c1 with
    | some (PuvResult.hex hx, c2) =>
      .next { st with cur := c2, dict := dictSet st.dict tk (.str ("0x0000" ++ byteSwapToStr hx)), temp_key := "", last := .value, mode := .nullrun }
    | _ => .err
  else
    .next { st with cur := c1, dict := dictSet st.dict tk (.str ""), temp_key := tk, last := .key, mode := .nullrun }

/-- General section, VALUE termination on a zero chunk (lines 258–274): the
`Threat`/`regkey` re-keying heuristic. -/
def genValueTerminate (fuel : Nat) (st : PState) (c1 : ByteCursor) : StepRes :=
  match dictGet st.dict st.temp_key with
  | some (PValue.str v) =>
    let fv := stripNul v
    if pyIn "Threat" (strTake 6 fv) || pyIn "regkey" (strTake 6 fv) then
      let d1 := dictSet (dictSet st.dict st.temp_key (.str "")) fv (.str "")
      if pyIn "ThreatTrackingThreatId" fv || pyIn "ThreatTrackingSize" fv then
        match parse_unmapped_value fuel c1 with
        | some (PuvResult.hex hx, c2) =>
          .next { st with cur := c2, dict := dictSet d1 fv (.int (byteSwapToInt hx)), temp_key := "", last := .value, mode := .nullrun }
        | _ => .err
      else
        .next { st with cur := c1, dict := d1, temp_key := fv, last := .key, mode := .nullrun }
    else
      .next { st with cur := c1, dict := dictSet st.dict st.temp_key (.str fv), temp_key := "", last := .value, mode := .nullrun }
  | _ => .err

/-- One iteration of the `while GENERAL_SECTION` loop (lines 210–278).
`fuel` bounds the nested `parse_unmapped_value` loops. -/
def genBody (fuel : Nat) (st : PState) : StepRes :=
  let (chunk, c1) := st.cur.read 2
  if chunk = [] then .stop { st with cur := c1 }
  else if st.mode = .nullrun then genNullStep st chunk c1
  else if chunk = [0x00, 0x00] then
    if st.mode = .key then genKeyTerminate fuel st c1
    else genValueTerminate fuel st c1
  else if st.mode = .key then
    match decodeChunk chunk with
    | none => .err
    | some s => .next { st with cur := c1, temp_key := st.temp_key ++ s }
  else
    match decodeChunk chunk with
    | none => .err
    | some s =>
      match dictAppendStr st.dict st.temp_key s with
      | none => .err
      | some d => .next { st with cur := c1, dict := d }

/-- Trailer section, `NULL_DATA_MODE` branch (lines 285–297): the 10-byte
line-feed skip and the colon-aware 4-byte confirmation; the `try` block
catches only `UnicodeDecodeError`, so a failed text decode simply continues
scanning (with the look-ahead bytes already consumed). -/
def trailerNullStep (st : PState) (chunk : List Nat) (c1 : ByteCursor) : StepRes :=
  if chunk = [0x0A, 0x00] ∨ chunk = [0x00, 0x0A] then
    let (_, c2) := c1.read 10
    .next { st with cur := c2 }
  else
    match decodeChunk chunk with
    | none => .next { st with cur := c1 }
    | some s =>
      if 1 ≤ wordCount s then
        let (ch2, c2) := c1.read 2
        let chunk4 := chunk ++ ch2
        match decodeChunk chunk4 with
        | none => .next { st with cur := c2 }
        | some s4 =>
          if 2 ≤ trailerWordLen s4 then
            if chunk4.contains 0 then
              match pyListGet eofSectionKeys (st.eofIdx + 1) with
              | none => .err
              | some k =>
                .next { st with cur := c2, dict := dictSet st.dict k (.str s4), eofIdx := st.eofIdx + 1, mode := .value }
            else .next { st with cur := c2 }
          else .next { st with cur := c2 }
      else .next { st with cur := c1 }

/-- Trailer section, `VALUE_READ_MODE` branch (lines 298–303). -/
def trailerValueStep (st : PState) (chunk : List Nat) (c1 : ByteCursor) : StepRes :=
  if chunk = [0x00, 0x00] then
    match pyListGet eofSectionKeys st.eofIdx with
    | none => .err
    | some k =>
      match dictGet st.dict k with
      | some (PValue.str v) =>
        .next { st with cur := c1, dict := dictSet st.dict k (.str (stripNul v)), mode := .nullrun }
      | _ => .err
  else
    match decodeChunk chunk with
    | none => .err
    | some s =>
      match pyListGet eofSectionKeys st.eofIdx with
      | none => .err
      | some k =>
        match dictAppendStr st.dict k s with
        | none => .err
        | some d => .next { st with cur := c1, dict := d }

/-- One iteration of the `while NEAREST_EOF_SECTION` loop (lines 280–303). -/
def trailerBody (st : PState) : StepRes :=
  let (chunk, c1) := st.cur.read 2
  if chunk = [] then .stop { st with cur := c1 }
  else if st.mode = .nullrun then trailerNullStep st chunk c1
  else if st.mode = .value then trailerValueStep st chunk c1
  else .next { st with cur := c1 }

/-- Run a section loop to completion (fuel-bounded). -/
def runSection (body : PState → StepRes) : Nat → PState → Option PState
  | 0, _ => none
  | fuel + 1, st =>
    match body st with
    | .next st1 => runSection body fuel st1
    | .stop st1 => some st1
    | .err => none

/-- Run exactly `n` continuing iterations of a section body (for naming the
intermediate states a section pass visits). -/
def stepIter (body : PState → StepRes) : Nat → PState → Option PState
  | 0, st => some st
  | n + 1, st =>
    match body st with
    | .next st1 => stepIter body n st1
    | _ => none

/-- `parse_detection_history` up to the start of the General section: header
and GUID validation, the 8 skipped bytes, and the full Magic/Version pass. -/
def pipelineToGeneral (fuel : Nat) (buf : List Nat) : Option PState :=
  match parse_header_and_guid ⟨buf, 0⟩ with
  | none => none
  | some (g, c) =>
    let (_, c2) := c.read 8
    runSection mvBody fuel
      { cur := c2, dict := [("GUID", PValue.str g)], temp_key := "", mode := .key, last := .init, eofIdx := -1 }

/-- The whole decode of `parse_detection_history` (the decoding core; the
final JSON write is I/O glue): header, three section passes, and the decoded
mapping. -/
def parse_detection_history (fuel : Nat) (buf : List Nat) :
    Option (List (String × PValue)) :=
  match pipelineToGeneral fuel buf with
  | none => none
  | some st1 =>
    match runSection (genBody fuel) fuel st1 with
    | none => none
    | some st2 =>
      match runSection trailerBody fuel st2 with
      | none => none
      | some st3 => some st3.dict

/-- A minimal synthetic artifact whose General-section pass scans through byte
offset 242 in NULL_RUN mode: magic header, padding and GUID bytes, a
Magic/Version section ended by the wide-spaced text `file`, then zero bytes up
to offset 242 (total length 242). -/
def c3buf : List Nat :=
  [0x08, 0x00, 0x00, 0x00, 0x08, 0x00] ++ List.replicate 18 0 ++ List.replicate 16 0 ++
  List.replicate 8 0 ++ [0x66, 0x00, 0x69, 0x00, 0x6C, 0x00, 0x65, 0x00] ++
  List.replicate 16 0 ++ List.replicate 170 0

/-! ## Helper lemmas -/

/-- Once the cursor is exhausted, the caution-byte loop of
`parse_unmapped_value` never returns: `file.read(1)` yields `b''` forever. -/
theorem puvLoop_exhausted (fuel : Nat) : ∀ (acc chunk : List Nat) (c : ByteCursor),
    c.buf.length ≤ c.pos → puvLoop fuel acc chunk c = none := by
  induction fuel with
  | zero => intros; rfl
  | succ n ih =>
    intro acc chunk c h
    have hd : c.buf.drop c.pos = [] := List.drop_eq_nil_of_le h
    unfold puvLoop
    simp only [ByteCursor.read, hd, List.take_nil, List.length_nil, Nat.add_zero]
    by_cases hc : chunk ∈ cautionSequences
    · rw [if_pos hc]
      have : ¬ ([] : List Nat) = [0x00] := by decide
      rw [if_neg this]
      exact ih acc [] ⟨c.buf, c.pos⟩ h
    · rw [if_neg hc]
      exact ih (acc ++ chunk) [] ⟨c.buf, c.pos⟩ h

/-- Every value the caution-byte loop returns is `binascii.hexlify` output. -/
theorem puvLoop_hex (fuel : Nat) : ∀ (acc chunk : List Nat) (c : ByteCursor)
    (r : PuvResult) (c1 : ByteCursor),
    puvLoop fuel acc chunk c = some (r, c1) → ∃ bs, r = PuvResult.hex (hexlify bs) := by
  induction fuel with
  | zero => intro acc chunk c r c1 h; exact absurd h (by simp [puvLoop])
  | succ n ih =>
    intro acc chunk c r c1 h
    unfold puvLoop at h
    repeat split at h
    all_goals first
      | (injection h with h1; exact ⟨acc, (congrArg Prod.fst h1).symm⟩)
      | exact ih _ _ _ r c1 h

theorem hexlify_cons (b : Nat) (t : List Nat) :
    hexlify (b :: t) = hexChar (b / 16) :: hexChar (b % 16) :: hexlify t := rfl

theorem hexlify_length (bs : List Nat) : (hexlify bs).length = 2 * bs.length := by
  induction bs with
  | nil => rfl
  | cons b t ih => rw [hexlify_cons]; simp [ih]; omega

theorem chunk2_hexlify (bs : List Nat) :
    chunk2 (hexlify bs) = bs.map fun b => [hexChar (b / 16), hexChar (b % 16)] := by
  induction bs with
  | nil => rfl
  | cons b t ih => rw [hexlify_cons, chunk2, ih, List.map_cons]

/-- Reversing the hex-digit pairs of hexlified bytes is hexlifying the
reversed bytes: the code's "swap the hex string" equals the spec's "reverse
the byte order". -/
theorem revPairs_hexlify (bs : List Nat) :
    revPairs (hexlify bs) = hexlify bs.reverse := by
  unfold revPairs
  rw [chunk2_hexlify, ← List.map_reverse]
  rfl

theorem hexCharVal_hexChar (d : Nat) (h : d < 16) : hexCharVal (hexChar d) = d := by
  unfold hexChar hexCharVal
  split
  · rw [if_pos] <;> omega
  · rw [if_neg, if_pos] <;> omega

theorem hexDigitsVal_hexlify (bs : List Nat) (hb : ∀ b ∈ bs, b < 256) :
    hexDigitsVal ((hexlify bs).map hexCharVal) = beVal bs := by
  induction bs with
  | nil => rfl
  | cons b t ih =>
    have hb256 : b < 256 := hb b (by simp)
    rw [hexlify_cons]
    simp only [List.map_cons, hexDigitsVal, beVal]
    rw [hexCharVal_hexChar _ (by omega),
        hexCharVal_hexChar _ (Nat.mod_lt _ (by norm_num)),
        ih (fun x hx => hb x (by simp [hx]))]
    have hlen : ((hexlify t).map hexCharVal).length = 2 * t.length := by
      simp [hexlify_length]
    simp only [List.length_cons, hlen]
    have h256 : (16 : Nat) ^ (2 * t.length) = 256 ^ t.length := by
      rw [Nat.pow_mul]
    have hb16 : 16 * (b / 16) + b % 16 = b := Nat.div_add_mod b 16
    calc b / 16 * 16 ^ (2 * t.length + 1) + (b % 16 * 16 ^ (2 * t.length) + beVal t)
        = (16 * (b / 16) + b % 16) * 16 ^ (2 * t.length) + beVal t := by ring
      _ = b * 256 ^ t.length + beVal t := by rw [hb16, h256]

theorem beVal_append (xs : List Nat) (b : Nat) :
    beVal (xs ++ [b]) = beVal xs * 256 + b := by
  induction xs with
  | nil => simp [beVal]
  | cons a t ih =>
    rw [List.cons_append]
    simp only [beVal]
    rw [ih, List.length_append]
    simp only [List.length_cons, List.length_nil, pow_succ, pow_zero]
    ring

theorem beVal_reverse (bs : List Nat) : beVal bs.reverse = leVal bs := by
  induction bs with
  | nil => rfl
  | cons b t ih =>
    rw [List.reverse_cons, beVal_append, ih, leVal]
    ring

/-- The code's `byte_swap_to_int(binascii.hexlify(bs))` is the little-endian
value of the bytes `bs`. -/
theorem byteSwapToInt_hexlify (bs : List Nat) (hb : ∀ b ∈ bs, b < 256) :
    byteSwapToInt (hexlify bs) = leVal bs := by
  unfold byteSwapToInt
  rw [revPairs_hexlify,
      hexDigitsVal_hexlify _ (fun b hbm => hb b (List.mem_reverse.mp hbm)),
      beVal_reverse]

theorem toLEBytes_leVal (bs : List Nat) (hb : ∀ b ∈ bs, b < 256) :
    toLEBytes bs.length (leVal bs) = bs := by
  induction bs with
  | nil => rfl
  | cons b t ih =>
    have hb256 : b < 256 := hb b (by simp)
    simp only [List.length_cons, toLEBytes, leVal]
    rw [Nat.add_mul_mod_self_left, Nat.mod_eq_of_lt hb256,
        Nat.add_mul_div_left _ _ (by norm_num : (0:Nat) < 256),
        Nat.div_eq_of_lt hb256, Nat.zero_add,
        ih (fun x hx => hb x (by simp [hx]))]

theorem dictGet_dictSet_self (d : List (String × PValue)) (k : String) (v : PValue) :
    dictGet (dictSet d k v) k = some v := by
  induction d with
  | nil => simp [dictSet, dictGet]
  | cons p t ih =>
    by_cases h : p.1 = k
    · simp [dictSet, dictGet, h]
    · simp [dictSet, dictGet, h, ih]

/-! ## Theorems for the claims -/

set_option maxHeartbeats 1000000 in
/-- C1: for any stream `00 00 00`, three arbitrary bytes, `32 00`, the
tracking-value scanner terminates and returns exactly the hex encoding of the
three arbitrary bytes (cursor left after the peeked zero byte). -/
theorem c1_tracking_value_scan (b1 b2 b3 : Nat)
    (hb1 : b1 < 256) (hb2 : b2 < 256) (hb3 : b3 < 256) :
    parse_unmapped_value 20 ⟨[0x00, 0x00, 0x00, b1, b2, b3, 0x32, 0x00], 0⟩ =
      some (PuvResult.hex (hexlify [b1, b2, b3]),
            ⟨[0x00, 0x00, 0x00, b1, b2, b3, 0x32, 0x00], 8⟩) := by
  have h1 : parse_unmapped_value 20 ⟨[0x00, 0x00, 0x00, b1, b2, b3, 0x32, 0x00], 0⟩
      = puvLoop 20 [b1, b2, b3] [0x32] ⟨[0x00, 0x00, 0x00, b1, b2, b3, 0x32, 0x00], 7⟩ := rfl
  rw [h1]
  rfl

/-- Witness for C1 at the concrete bytes `09 08 07`. -/
theorem c1_tracking_value_scan_witness :
    (9 : Nat) < 256 ∧ (8 : Nat) < 256 ∧ (7 : Nat) < 256 ∧
    parse_unmapped_value 20 ⟨[0x00, 0x00, 0x00, 9, 8, 7, 0x32, 0x00], 0⟩ =
      some (PuvResult.hex (hexlify [9, 8, 7]),
            ⟨[0x00, 0x00, 0x00, 9, 8, 7, 0x32, 0x00], 8⟩) :=
  ⟨by decide, by decide, by decide,
   c1_tracking_value_scan 9 8 7 (by decide) (by decide) (by decide)⟩

/-- C2: on a stream exhausted while the scanner runs (here `00 00 00 05 05 05
32` with end of input at the peek), the routine returns no value and raises no
error for any amount of fuel: `file.read(1)` returns `b''` at end of input, so
the Python loop spins forever instead of failing the record as the
specification requires. -/
theorem c2_tracking_scan_eof_diverges (fuel : Nat) :
    parse_unmapped_value fuel ⟨[0x00, 0x00, 0x00, 0x05, 0x05, 0x05, 0x32], 0⟩ = none := by
  match fuel with
  | 0 => rfl
  | n + 1 =>
    have hstep : parse_unmapped_value (n + 1) ⟨[0x00, 0x00, 0x00, 0x05, 0x05, 0x05, 0x32], 0⟩
        = puvLoop (n + 1) [0x05, 0x05, 0x05] [0x32]
            ⟨[0x00, 0x00, 0x00, 0x05, 0x05, 0x05, 0x32], 7⟩ := rfl
    rw [hstep]
    exact puvLoop_exhausted (n + 1) _ _ _ (by decide)

/-- C10: whenever `parse_unmapped_value` terminates, the value is the hex
encoding of the accumulated byte run returned from inside the caution-byte
loop; the trailing `return 0` is unreachable, so no caller ever receives the
integer sentinel. -/
theorem c10_scan_result_always_hex (fuel : Nat) (c : ByteCursor) (r : PuvResult)
    (c1 : ByteCursor) (h : parse_unmapped_value fuel c = some (r, c1)) :
    (∃ bs, r = PuvResult.hex (hexlify bs)) ∧ r ≠ PuvResult.sentinel 0 := by
  have hx : ∃ bs, r = PuvResult.hex (hexlify bs) := by
    unfold parse_unmapped_value at h
    repeat split at h
    all_goals first
      | exact puvLoop_hex fuel _ _ _ r c1 h
      | exact absurd h (by simp)
  refine ⟨hx, ?_⟩
  obtain ⟨bs, rfl⟩ := hx
  intro hcon
  exact PuvResult.noConfusion hcon

/-- Witness for C10 at the C1-style input `00 00 00 01 02 03 32 00`. -/
theorem c10_scan_result_always_hex_witness :
    (∃ bs, PuvResult.hex (hexlify [1, 2, 3]) = PuvResult.hex (hexlify bs)) ∧
    PuvResult.hex (hexlify [1, 2, 3]) ≠ PuvResult.sentinel 0 :=
  c10_scan_result_always_hex 20 ⟨[0x00, 0x00, 0x00, 1, 2, 3, 0x32, 0x00], 0⟩
    (PuvResult.hex (hexlify [1, 2, 3]))
    ⟨[0x00, 0x00, 0x00, 1, 2, 3, 0x32, 0x00], 8⟩ rfl

theorem hexChar_class (d : Nat) (h : d < 16) :
    (Char.ofNat (hexChar d)).isDigit ∨
      ('a' ≤ Char.ofNat (hexChar d) ∧ Char.ofNat (hexChar d) ≤ 'f') := by
  interval_cases d <;> decide

theorem mem_hexlify (bs : List Nat) (hb : ∀ b ∈ bs, b < 256) :
    ∀ x ∈ hexlify bs, ∃ d, d < 16 ∧ x = hexChar d := by
  induction bs with
  | nil => simp [hexlify]
  | cons b t ih =>
    have hb256 : b < 256 := hb b (by simp)
    intro x hx
    rw [hexlify_cons] at hx
    simp only [List.mem_cons] at hx
    rcases hx with hx | hx | hx
    · exact ⟨b / 16, by omega, hx⟩
    · exact ⟨b % 16, Nat.mod_lt _ (by norm_num), hx⟩
    · exact ih (fun y hy => hb y (by simp [hy])) x hx

theorem hexlify_chars (g : List Nat) (hb : ∀ b ∈ g, b < 256) :
    ∀ ch ∈ (hexlify g).map Char.ofNat,
      ch.isDigit ∨ ('a' ≤ ch ∧ ch ≤ 'f') := by
  intro ch hch
  rw [List.mem_map] at hch
  obtain ⟨x, hx, rfl⟩ := hch
  obtain ⟨d, hd, rfl⟩ := mem_hexlify g hb x hx
  exact hexChar_class d hd

/-- C5: header validation rejects exactly the buffers whose first 6 bytes
differ from `08 00 00 00 08 00`; on a mismatch the whole record decode of
`parse_detection_history` yields no mapping, and on a match validation
succeeds and decoding proceeds. -/
theorem c5_header_validation (buf : List Nat) :
    (buf.take 6 ≠ magicBytes →
      parse_header_and_guid ⟨buf, 0⟩ = none ∧
      ∀ fuel, parse_detection_history fuel buf = none) ∧
    (buf.take 6 = magicBytes → (parse_header_and_guid ⟨buf, 0⟩).isSome) := by
  constructor
  · intro hne
    have hh : parse_header_and_guid ⟨buf, 0⟩ = none := by
      unfold parse_header_and_guid
      simp [ByteCursor.read, hne]
    refine ⟨hh, fun fuel => ?_⟩
    unfold parse_detection_history pipelineToGeneral
    rw [hh]
  · intro he
    unfold parse_header_and_guid
    simp [ByteCursor.read, he]

/-- Witness for C5: the buffer `[1, 2, 3]` is rejected end to end, and a
buffer starting with the magic bytes passes validation. -/
theorem c5_header_validation_witness :
    ([1, 2, 3] : List Nat).take 6 ≠ magicBytes ∧
    parse_header_and_guid ⟨[1, 2, 3], 0⟩ = none ∧
    parse_detection_history 50 [1, 2, 3] = none ∧
    (parse_header_and_guid ⟨magicBytes, 0⟩).isSome :=
  ⟨by decide,
   ((c5_header_validation [1, 2, 3]).1 (by decide)).1,
   ((c5_header_validation [1, 2, 3]).1 (by decide)).2 50,
   (c5_header_validation magicBytes).2 (by decide)⟩

/-- C7: for every 8-byte little-endian input, `byte_swap_to_int` applied to
its hex representation returns the unsigned integer whose little-endian
encoding is the input, and re-deriving the 8 little-endian bytes from that
integer reproduces the input exactly. -/
theorem c7_byte_swap_round_trip (bs : List Nat) (hlen : bs.length = 8)
    (hb : ∀ b ∈ bs, b < 256) :
    byteSwapToInt (hexlify bs) = leVal bs ∧
    toLEBytes 8 (byteSwapToInt (hexlify bs)) = bs := by
  have h1 := byteSwapToInt_hexlify bs hb
  refine ⟨h1, ?_⟩
  rw [h1, ← hlen]
  exact toLEBytes_leVal bs hb

/-- Witness for C7 at the little-endian bytes of `0x98967B` (9999995). -/
theorem c7_byte_swap_round_trip_witness :
    ([0x7B, 0x96, 0x98, 0, 0, 0, 0, 0] : List Nat).length = 8 ∧
    byteSwapToInt (hexlify [0x7B, 0x96, 0x98, 0, 0, 0, 0, 0]) =
      leVal [0x7B, 0x96, 0x98, 0, 0, 0, 0, 0] ∧
    toLEBytes 8 (byteSwapToInt (hexlify [0x7B, 0x96, 0x98, 0, 0, 0, 0, 0])) =
      [0x7B, 0x96, 0x98, 0, 0, 0, 0, 0] :=
  ⟨by decide,
   (c7_byte_swap_round_trip _ (by decide) (by decide)).1,
   (c7_byte_swap_round_trip _ (by decide) (by decide)).2⟩

/-- C9: for every 16-byte identifier region (bytes bounded by 256), the GUID
decoder reads groups of sizes (4,2,2,2,6), hex-encodes each, reverses the byte
order within the first three groups only, joins the five groups with dashes,
and the result is a 36-character string whose non-dash characters are
lowercase hexadecimal digits, in the 8-4-4-4-12 grouping. -/
theorem c9_guid_format (bs : List Nat) (hlen : bs.length = 16) (hb : ∀ b ∈ bs, b < 256) :
    ∃ p0 p1 p2 p3 p4 : List Char,
      p0 = (hexlify ((bs.take 4).reverse)).map Char.ofNat ∧
      p1 = (hexlify (((bs.drop 4).take 2).reverse)).map Char.ofNat ∧
      p2 = (hexlify (((bs.drop 6).take 2).reverse)).map Char.ofNat ∧
      p3 = (hexlify ((bs.drop 8).take 2)).map Char.ofNat ∧
      p4 = (hexlify ((bs.drop 10).take 6)).map Char.ofNat ∧
      ((guidDecode ⟨bs, 0⟩).1).data =
        ((hexlify ((bs.take 4).reverse)).map Char.ofNat) ++ '-' ::
          (((hexlify (((bs.drop 4).take 2).reverse)).map Char.ofNat) ++ '-' ::
            (((hexlify (((bs.drop 6).take 2).reverse)).map Char.ofNat) ++ '-' ::
              (((hexlify ((bs.drop 8).take 2)).map Char.ofNat) ++ '-' ::
                ((hexlify ((bs.drop 10).take 6)).map Char.ofNat)))) ∧
      ((hexlify ((bs.take 4).reverse)).map Char.ofNat).length = 8 ∧
      ((hexlify (((bs.drop 4).take 2).reverse)).map Char.ofNat).length = 4 ∧
      ((hexlify (((bs.drop 6).take 2).reverse)).map Char.ofNat).length = 4 ∧
      ((hexlify ((bs.drop 8).take 2)).map Char.ofNat).length = 4 ∧
      ((hexlify ((bs.drop 10).take 6)).map Char.ofNat).length = 12 ∧
      ((guidDecode ⟨bs, 0⟩).1).length = 36 ∧
      (∀ ch ∈ ((hexlify ((bs.take 4).reverse)).map Char.ofNat) ++
              ((hexlify (((bs.drop 4).take 2).reverse)).map Char.ofNat) ++
              ((hexlify (((bs.drop 6).take 2).reverse)).map Char.ofNat) ++
              ((hexlify ((bs.drop 8).take 2)).map Char.ofNat) ++
              ((hexlify ((bs.drop 10).take 6)).map Char.ofNat),
        ch.isDigit ∨ ('a' ≤ ch ∧ ch ≤ 'f')) := by
  have hdata : ((guidDecode ⟨bs, 0⟩).1).data =
      ((hexlify ((bs.take 4).reverse)).map Char.ofNat) ++ '-' ::
        (((hexlify (((bs.drop 4).take 2).reverse)).map Char.ofNat) ++ '-' ::
          (((hexlify (((bs.drop 6).take 2).reverse)).map Char.ofNat) ++ '-' ::
            (((hexlify ((bs.drop 8).take 2)).map Char.ofNat) ++ '-' ::
              ((hexlify ((bs.drop 10).take 6)).map Char.ofNat)))) := by
    unfold guidDecode
    simp only [ByteCursor.read, List.drop_zero, List.length_take, List.length_drop, hlen,
      Nat.zero_add]
    norm_num
    rw [revPairs_hexlify, revPairs_hexlify, revPairs_hexlify]
    simp [asciiStr, String.data_append, List.append_assoc]
  have hl0 : ((hexlify ((bs.take 4).reverse)).map Char.ofNat).length = 8 := by
    simp [hexlify_length, List.length_take, hlen]
  have hl1 : ((hexlify (((bs.drop 4).take 2).reverse)).map Char.ofNat).length = 4 := by
    simp [hexlify_length, List.length_take, List.length_drop, hlen]
  have hl2 : ((hexlify (((bs.drop 6).take 2).reverse)).map Char.ofNat).length = 4 := by
    simp [hexlify_length, List.length_take, List.length_drop, hlen]
  have hl3 : ((hexlify ((bs.drop 8).take 2)).map Char.ofNat).length = 4 := by
    simp [hexlify_length, List.length_take, List.length_drop, hlen]
  have hl4 : ((hexlify ((bs.drop 10).take 6)).map Char.ofNat).length = 12 := by
    simp [hexlify_length, List.length_take, List.length_drop, hlen]
  refine ⟨_, _, _, _, _, rfl, rfl, rfl, rfl, rfl, hdata, hl0, hl1, hl2, hl3, hl4, ?_, ?_⟩
  · have : ((guidDecode ⟨bs, 0⟩).1).length = ((guidDecode ⟨bs, 0⟩).1).data.length := rfl
    rw [this, hdata]
    simp only [List.length_append, List.length_cons, List.length_map] at *
    omega
  · intro ch hch
    simp only [List.append_assoc, List.mem_append] at hch
    rcases hch with h | h | h | h | h
    · exact hexlify_chars _ (fun b hbm => hb b (List.take_subset 4 bs (List.mem_reverse.mp hbm))) ch h
    · exact hexlify_chars _ (fun b hbm => hb b (List.drop_subset 4 bs (List.take_subset _ _ (List.mem_reverse.mp hbm)))) ch h
    · exact hexlify_chars _ (fun b hbm => hb b (List.drop_subset 6 bs (List.take_subset _ _ (List.mem_reverse.mp hbm)))) ch h
    · exact hexlify_chars _ (fun b hbm => hb b (List.drop_subset 8 bs (List.take_subset _ _ hbm))) ch h
    · exact hexlify_chars _ (fun b hbm => hb b (List.drop_subset 10 bs (List.take_subset _ _ hbm))) ch h

/-- Witness for C9 at a concrete 16-byte identifier. -/
theorem c9_guid_format_witness :
    ((guidDecode ⟨[0x12, 0x34, 0x56, 0x78, 0x9A, 0xBC, 0xDE, 0xF0,
                   0x11, 0x22, 0x33, 0x44, 0x55, 0x66, 0x77, 0x88], 0⟩).1).length = 36 := by
  obtain ⟨p0, p1, p2, p3, p4, e0, e1, e2, e3, e4, hdata, l0, l1, l2, l3, l4, h36, hcls⟩ :=
    c9_guid_format [0x12, 0x34, 0x56, 0x78, 0x9A, 0xBC, 0xDE, 0xF0,
                    0x11, 0x22, 0x33, 0x44, 0x55, 0x66, 0x77, 0x88] (by decide) (by decide)
  exact h36

theorem formatMicros_eq_formatSeconds (M : Nat) :
    formatMicrosSince1601 M = formatSecondsSince1601 (M / 1000000) := by
  unfold formatMicrosSince1601 formatSecondsSince1601
  rw [Nat.div_div_eq_div_mul]

set_option maxHeartbeats 1000000 in
/-- C8 counterexample: at the tick count 9999995 (`0x98967B`, little-endian
bytes `7B 96 98 00 00 00 00 00`), `parse_filetime` outputs
`01-01-1601 00:00:01`, while second-precision formatting of the exact tick
count (0.9999995 s) gives `01-01-1601 00:00:00`: the tick count passes through
`float(ticks/10)`, and `timedelta` rounds the microsecond value 999999.5 up to
a whole second (ties to even). -/
theorem c8_float_rounding_counterexample :
    (parse_filetime ⟨[0, 0, 0, 0, 0x7B, 0x96, 0x98, 0, 0, 0, 0, 0], 0⟩).map Prod.fst =
      some "01-01-1601 00:00:01" ∧
    specTimestampOfTicks (leVal [0x7B, 0x96, 0x98, 0, 0, 0, 0, 0]) = "01-01-1601 00:00:00" ∧
    leVal [0x7B, 0x96, 0x98, 0, 0, 0, 0, 0] = 9999995 := by
  refine And.intro ?g1 (And.intro ?g2 ?g3)
  case g1 => decide
  case g2 => decide
  case g3 => decide

/-- C8 (amended): with at least 12 bytes at the cursor, `parse_filetime` skips
4 bytes, reads 8 bytes as the little-endian tick count, converts the ticks to
microseconds through double-precision rounding (`pyRoundMicroOfTicks`), and
formats the resulting instant after 1601-01-01 with second precision as
`MM-DD-YYYY HH:MM:SS`, advancing the cursor by 12. -/
theorem c8_filetime_format (buf : List Nat) (p : Nat)
    (s1 s2 s3 s4 b1 b2 b3 b4 b5 b6 b7 b8 : Nat) (rest : List Nat)
    (hdrop : buf.drop p =
      s1 :: s2 :: s3 :: s4 :: b1 :: b2 :: b3 :: b4 :: b5 :: b6 :: b7 :: b8 :: rest)
    (hb : ∀ b ∈ [b1, b2, b3, b4, b5, b6, b7, b8], b < 256)
    (hov : pyRoundMicroOfTicks (byteSwapToInt (hexlify [b1, b2, b3, b4, b5, b6, b7, b8]))
      ≤ maxMicros) :
    parse_filetime ⟨buf, p⟩ =
      some (formatSecondsSince1601
              (pyRoundMicroOfTicks (byteSwapToInt (hexlify [b1, b2, b3, b4, b5, b6, b7, b8]))
                / 1000000),
            ⟨buf, p + 12⟩) ∧
    byteSwapToInt (hexlify [b1, b2, b3, b4, b5, b6, b7, b8]) =
      leVal [b1, b2, b3, b4, b5, b6, b7, b8] := by
  have hdrop4 : buf.drop (p + 4) = b1 :: b2 :: b3 :: b4 :: b5 :: b6 :: b7 :: b8 :: rest := by
    rw [← List.drop_drop, hdrop]
    rfl
  constructor
  · unfold parse_filetime
    simp only [ByteCursor.read, hdrop]
    have e1 : List.take 4
        (s1 :: s2 :: s3 :: s4 :: b1 :: b2 :: b3 :: b4 :: b5 :: b6 :: b7 :: b8 :: rest)
        = [s1, s2, s3, s4] := rfl
    rw [e1]
    have e2 : ([s1, s2, s3, s4] : List Nat).length = 4 := rfl
    rw [e2, hdrop4]
    have e3 : List.take 8 (b1 :: b2 :: b3 :: b4 :: b5 :: b6 :: b7 :: b8 :: rest)
        = [b1, b2, b3, b4, b5, b6, b7, b8] := rfl
    rw [e3]
    have e4 : ([b1, b2, b3, b4, b5, b6, b7, b8] : List Nat).length = 8 := rfl
    rw [e4]
    rw [if_pos hov, formatMicros_eq_formatSeconds]
  · exact byteSwapToInt_hexlify _ hb

set_option maxHeartbeats 1000000 in
/-- Witness for C8 at the tick count 10,000,000 (one second). -/
theorem c8_filetime_format_witness :
    parse_filetime ⟨[0, 0, 0, 0, 0x80, 0x96, 0x98, 0, 0, 0, 0, 0], 0⟩ =
      some (formatSecondsSince1601
              (pyRoundMicroOfTicks (byteSwapToInt (hexlify [0x80, 0x96, 0x98, 0, 0, 0, 0, 0]))
                / 1000000),
            ⟨[0, 0, 0, 0, 0x80, 0x96, 0x98, 0, 0, 0, 0, 0], 0 + 12⟩) ∧
    byteSwapToInt (hexlify [0x80, 0x96, 0x98, 0, 0, 0, 0, 0]) =
      leVal [0x80, 0x96, 0x98, 0, 0, 0, 0, 0] :=
  c8_filetime_format [0, 0, 0, 0, 0x80, 0x96, 0x98, 0, 0, 0, 0, 0] 0
    0 0 0 0 0x80 0x96 0x98 0 0 0 0 0 [] rfl (by decide) (by decide)

set_option maxHeartbeats 4000000 in
/-- C3 counterexample: on `c3buf` the General-section pass reaches byte offset
240 in NULL_RUN mode, its next step reads the 2-byte chunk ending exactly at
offset 242, and no `ThreatStatusID` entry is recorded — neither in that step
nor in the final decoded mapping.  (The offset-242 check lives in the
Magic/Version pass, lines 201–203, not in the General pass.) -/
theorem c3_general_pass_no_threatstatusid :
    ((pipelineToGeneral 300 c3buf).bind (stepIter (genBody 300) 84)).map
        (fun st => (st.cur.pos, st.mode)) = some (240, ReadMode.nullrun) ∧
    ((pipelineToGeneral 300 c3buf).bind (stepIter (genBody 300) 85)).map
        (fun st => (st.cur.pos, dictGet st.dict "ThreatStatusID")) = some (242, none) ∧
    (parse_detection_history 400 c3buf).map (fun d => dictGet d "ThreatStatusID") =
      some none := by
  refine And.intro ?g1 (And.intro ?g2 ?g3)
  case g1 => decide
  case g2 => decide
  case g3 => decide

/-- C3 (amended): it is the Magic/Version-section pass that performs the fixed
offset check: whenever its cursor position equals byte offset 242 immediately
after reading a 2-byte chunk in NULL_RUN mode and the iteration completes,
the chunk is additionally decoded as a little-endian integer and recorded
under `ThreatStatusID`. -/
theorem c3_threatstatusid_magicversion (buf : List Nat) (p : Nat)
    (dict : List (String × PValue)) (tk : String) (last : ReadMode) (idx : Int)
    (chunk : List Nat) (st1 : PState)
    (hchunk : (buf.drop p).take 2 = chunk)
    (hb : ∀ b ∈ chunk, b < 256)
    (hpos : p + chunk.length = 242)
    (hstep : mvBody ⟨⟨buf, p⟩, dict, tk, ReadMode.nullrun, last, idx⟩ = StepRes.next st1) :
    dictGet st1.dict "ThreatStatusID" = some (PValue.int (leVal chunk)) := by
  unfold mvBody at hstep
  simp only [ByteCursor.read, hchunk, hpos] at hstep
  rw [if_neg (by decide : ¬ (ReadMode.nullrun = ReadMode.key)),
      if_neg (by decide : ¬ (ReadMode.nullrun = ReadMode.value))] at hstep
  rw [← byteSwapToInt_hexlify chunk hb]
  simp only [eq_self_iff_true, if_true] at hstep
  split at hstep
  all_goals try split at hstep
  all_goals try split at hstep
  all_goals try split at hstep
  all_goals try split at hstep
  all_goals first
    | (injection hstep with h1; rw [← h1]; simp [dictGet_dictSet_self])
    | injection hstep

set_option maxRecDepth 10000 in
/-- Witness for C3's amended theorem: a 242-byte zero buffer read at offset
240 in NULL_RUN mode records `ThreatStatusID = 0`. -/
theorem c3_threatstatusid_magicversion_witness :
    dictGet (PState.mk ⟨List.replicate 242 0, 242⟩
        [("ThreatStatusID", PValue.int 0)] "" ReadMode.nullrun ReadMode.init (-1)).dict
      "ThreatStatusID" = some (PValue.int (leVal [0, 0])) :=
  c3_threatstatusid_magicversion (List.replicate 242 0) 240 [] "" ReadMode.init (-1)
    [0, 0]
    (PState.mk ⟨List.replicate 242 0, 242⟩ [("ThreatStatusID", PValue.int 0)] ""
      ReadMode.nullrun ReadMode.init (-1))
    (by decide) (by decide) (by decide) (by decide)

/-- C4 counterexample: a terminated VALUE whose text is
`ThreatTrackingSigSeq` is re-keyed, but its value is NOT decoded with the
tracking-value scanner: the new key's value stays the empty string and the
cursor moves only past the 2-byte zero chunk — even though a decodable
tracking value follows at that very position (second conjunct).  Only
`ThreatTrackingThreatId`/`ThreatTrackingSize` trigger the scanner in the
re-key path (lines 266–269). -/
theorem c4_sigseq_not_scanned :
    genBody 100 ⟨⟨[0x00, 0x00, 0x00, 0x00, 0x00, 1, 2, 3, 0x32, 0x00], 0⟩,
        [("k", PValue.str "ThreatTrackingSigSeq")], "k", ReadMode.value, ReadMode.init, -1⟩ =
      StepRes.next ⟨⟨[0x00, 0x00, 0x00, 0x00, 0x00, 1, 2, 3, 0x32, 0x00], 2⟩,
             [("k", PValue.str ""), ("ThreatTrackingSigSeq", PValue.str "")],
             "ThreatTrackingSigSeq", ReadMode.nullrun, ReadMode.key, -1⟩ ∧
    parse_unmapped_value 100 ⟨[0x00, 0x00, 0x00, 0x00, 0x00, 1, 2, 3, 0x32, 0x00], 2⟩ =
      some (PuvResult.hex (hexlify [1, 2, 3]),
            ⟨[0x00, 0x00, 0x00, 0x00, 0x00, 1, 2, 3, 0x32, 0x00], 10⟩) := by
  refine And.intro ?g1 ?g2
  case g1 => decide
  case g2 => decide

/-- C4 (amended): when a VALUE terminates on a zero chunk and the
null-stripped value text begins with `Threat` or `regkey` within its first 6
characters, the stray field's value is reset to empty and the text itself is
registered as a new key with an empty value awaiting the next value; if the
new key contains `ThreatTrackingThreatId` or `ThreatTrackingSize` its value is
immediately decoded via the tracking-value scanner instead
(`ThreatTrackingSigSeq` is not re-decoded in this path). -/
theorem c4_value_rekey (fuel : Nat) (buf : List Nat) (p : Nat)
    (dict : List (String × PValue)) (tk : String) (last : ReadMode) (idx : Int)
    (v : String)
    (hchunk : (buf.drop p).take 2 = [0x00, 0x00])
    (hv : dictGet dict tk = some (PValue.str v))
    (hthreat : (pyIn "Threat" (strTake 6 (stripNul v)) ||
                pyIn "regkey" (strTake 6 (stripNul v))) = true) :
    (¬ (pyIn "ThreatTrackingThreatId" (stripNul v) ||
        pyIn "ThreatTrackingSize" (stripNul v)) = true →
      genBody fuel ⟨⟨buf, p⟩, dict, tk, ReadMode.value, last, idx⟩ =
        StepRes.next ⟨⟨buf, p + 2⟩,
               dictSet (dictSet dict tk (PValue.str "")) (stripNul v) (PValue.str ""),
               stripNul v, ReadMode.nullrun, ReadMode.key, idx⟩) ∧
    (∀ hx c2, (pyIn "ThreatTrackingThreatId" (stripNul v) ||
               pyIn "ThreatTrackingSize" (stripNul v)) = true →
      parse_unmapped_value fuel ⟨buf, p + 2⟩ = some (PuvResult.hex hx, c2) →
      genBody fuel ⟨⟨buf, p⟩, dict, tk, ReadMode.value, last, idx⟩ =
        StepRes.next ⟨c2,
               dictSet (dictSet (dictSet dict tk (PValue.str "")) (stripNul v) (PValue.str ""))
                 (stripNul v) (PValue.int (byteSwapToInt hx)),
               "", ReadMode.nullrun, ReadMode.value, idx⟩) := by
  have hdisp : genBody fuel ⟨⟨buf, p⟩, dict, tk, ReadMode.value, last, idx⟩ =
      genValueTerminate fuel ⟨⟨buf, p⟩, dict, tk, ReadMode.value, last, idx⟩ ⟨buf, p + 2⟩ := by
    unfold genBody
    simp only [ByteCursor.read, hchunk]
    rw [if_neg (by decide : ¬ ([0x00, 0x00] : List Nat) = []),
        if_neg (by decide : ¬ (ReadMode.value = ReadMode.nullrun)),
        if_pos trivial,
        if_neg (by decide : ¬ (ReadMode.value = ReadMode.key))]
    rfl
  constructor
  · intro hno
    rw [hdisp]
    unfold genValueTerminate
    simp only [hv]
    rw [if_pos hthreat, if_neg hno]
  · intro hx c2 hyes hpuv
    rw [hdisp]
    unfold genValueTerminate
    simp only [hv]
    rw [if_pos hthreat, if_pos hyes, hpuv]

/-- Witness for C4's amended theorem: value text `ThreatFoo` becomes a new
empty-valued key `ThreatFoo`. -/
theorem c4_value_rekey_witness :
    genBody 10 ⟨⟨[0x00, 0x00], 0⟩, [("k", PValue.str "ThreatFoo")], "k",
        ReadMode.value, ReadMode.init, -1⟩ =
      StepRes.next ⟨⟨[0x00, 0x00], 0 + 2⟩,
             dictSet (dictSet [("k", PValue.str "ThreatFoo")] "k" (PValue.str ""))
               (stripNul "ThreatFoo") (PValue.str ""),
             stripNul "ThreatFoo", ReadMode.nullrun, ReadMode.key, -1⟩ :=
  (c4_value_rekey 10 [0x00, 0x00] 0 [("k", PValue.str "ThreatFoo")] "k"
      ReadMode.init (-1) "ThreatFoo" (by decide) (by decide) (by decide)).1 (by decide)

/-- C6 counterexample: on the chunk bytes `61 62 63 64` (`abcd`, no NUL byte)
in NULL_RUN mode, the Trailer pass does not advance a positional key and stays
in NULL_RUN mode, even though the General section's alphanumeric-confirmation
lookahead confirms the same window (`wordCount "abcd" ≥ 2`) and the General
pass switches to accumulating — so the Trailer confirmation is not "the same
2-then-4-byte alphanumeric-confirmation lookahead as the General section". -/
theorem c6_trailer_lookahead_differs :
    trailerBody ⟨⟨[0x61, 0x62, 0x63, 0x64], 0⟩, [("GUID", PValue.str "")], "",
        ReadMode.nullrun, ReadMode.init, -1⟩ =
      StepRes.next ⟨⟨[0x61, 0x62, 0x63, 0x64], 4⟩, [("GUID", PValue.str "")], "",
        ReadMode.nullrun, ReadMode.init, -1⟩ ∧
    2 ≤ wordCount "abcd" ∧
    genBody 10 ⟨⟨[0x61, 0x62, 0x63, 0x64], 0⟩, [("GUID", PValue.str "")], "",
        ReadMode.nullrun, ReadMode.init, -1⟩ =
      StepRes.next ⟨⟨[0x61, 0x62, 0x63, 0x64], 4⟩, [("GUID", PValue.str "")], "abcd",
        ReadMode.key, ReadMode.init, -1⟩ := by
  refine And.intro ?g1 (And.intro ?g2 ?g3)
  case g1 => decide
  case g2 => decide
  case g3 => decide

/-- C6 (amended): in the Trailer pass's NULL_RUN mode, a non-line-feed chunk
whose 2-byte decode contains a word character undergoes a 4-byte confirmation
that requires at least two characters kept by the colon- and space-preserving
regex AND a `0x00` byte inside the 4-byte window; on confirmation the pass
advances to the next positional key of the fixed list
`["User","SpawningProcessName","SecurityGroup"]`, stores the raw decoded
window under that key, and enters VALUE mode. -/
theorem c6_trailer_confirm (buf : List Nat) (p : Nat)
    (dict : List (String × PValue)) (tk : String) (last : ReadMode) (idx : Int)
    (chunk ch2 : List Nat) (s s4 k : String)
    (hchunk : (buf.drop p).take 2 = chunk)
    (hlen : chunk.length = 2)
    (hLF : chunk ≠ [0x0A, 0x00] ∧ chunk ≠ [0x00, 0x0A])
    (hdec : decodeChunk chunk = some s)
    (hw : 1 ≤ wordCount s)
    (hch2 : (buf.drop (p + 2)).take 2 = ch2)
    (hdec4 : decodeChunk (chunk ++ ch2) = some s4)
    (htw : 2 ≤ trailerWordLen s4)
    (hzero : (chunk ++ ch2).contains 0 = true)
    (hkey : pyListGet eofSectionKeys (idx + 1) = some k) :
    trailerBody ⟨⟨buf, p⟩, dict, tk, ReadMode.nullrun, last, idx⟩ =
      StepRes.next ⟨⟨buf, p + 2 + ch2.length⟩, dictSet dict k (PValue.str s4), tk,
        ReadMode.value, last, idx + 1⟩ := by
  have hne : chunk ≠ [] := by intro h; rw [h] at hlen; exact absurd hlen (by decide)
  have hdisp : trailerBody ⟨⟨buf, p⟩, dict, tk, ReadMode.nullrun, last, idx⟩ =
      trailerNullStep ⟨⟨buf, p⟩, dict, tk, ReadMode.nullrun, last, idx⟩ chunk ⟨buf, p + 2⟩ := by
    unfold trailerBody
    simp only [ByteCursor.read, hchunk]
    rw [if_neg hne, if_pos trivial, hlen]
  rw [hdisp]
  unfold trailerNullStep
  rw [if_neg (not_or.mpr hLF), hdec]
  simp only [ByteCursor.read, hch2]
  rw [if_pos hw]
  simp only [hdec4]
  rw [if_pos htw, if_pos hzero]
  simp only [hkey]

/-- Witness for C6's amended theorem: the window `61 00 62 00` (`a\x00b\x00`)
confirms and assigns the first positional key `User`. -/
theorem c6_trailer_confirm_witness :
    trailerBody ⟨⟨[0x61, 0x00, 0x62, 0x00], 0⟩, [], "", ReadMode.nullrun, ReadMode.init, -1⟩ =
      StepRes.next ⟨⟨[0x61, 0x00, 0x62, 0x00], 0 + 2 + ([0x62, 0x00] : List Nat).length⟩,
        dictSet [] "User" (PValue.str (String.mk ['a', Char.ofNat 0, 'b', Char.ofNat 0])),
        "", ReadMode.value, ReadMode.init, -1 + 1⟩ :=
  c6_trailer_confirm [0x61, 0x00, 0x62, 0x00] 0 [] "" ReadMode.init (-1)
    [0x61, 0x00] [0x62, 0x00] (String.mk ['a', Char.ofNat 0])
    (String.mk ['a', Char.ofNat 0, 'b', Char.ofNat 0]) "User"
    (by decide) (by decide) (by decide) (by decide) (by decide) (by decide)
    (by decide) (by decide) (by decide) (by decide)

end DHParser
